import Mathlib

/-!
Verification of the Q&A Session Controller, LLM Response Extractor and Export
Formatter of the email_gen repository (src/mainswapnil.py, src/mainswapnil1.py,
with the job-details fallback of src/main.py).

The Python scripts keep the session in `st.session_state` (fields `questions`,
`answers`, `idx`) and parse LLM output with CPython's `json.loads`.  The
embedding below models:

  * JSON values (`Json`) and CPython's strict `json.loads` as an executable
    recursive-descent parser (`parseCore` / `jsonLoads`).  JSON numbers are
    modelled for the integer fragment only (no claim involves non-integer
    numbers, `NaN` or `Infinity`); CPython's `JSONDecodeError` diagnostics carry
    only line/column/char positions, never the parsed document, and are not
    modelled beyond the failure itself.  A lone surrogate escape is outside the
    model of Python strings (Lean `Char` is a Unicode scalar value).
  * `json.dumps` on a list of strings (`dumpsList`, default separators,
    `ensure_ascii=True`) and `json.dumps(answers, indent=2)` on the exported
    answer records (`exportToJson`), exactly as the download buttons build them.
  * the question-parsing `try` block of mainswapnil.py lines 153-162
    (`parseQuestions`) and of mainswapnil1.py lines 95-102 (`parseQuestions1`).
  * the `json_match` regex fallback of main.py lines 94-109
    (`jsonMatchExtract` / `jobDetailsParse`).
  * the session state: defaults, the store-state block, the Submit-Answer
    handler and the Q&A rendering gate (`Session`, `Session.load`,
    `Session.submitAnswer`, `Session.render`).
-/

/-- A JSON value as produced by CPython's `json.loads`: objects are
insertion-ordered key/value lists (Python dicts preserve declaration order). -/
inductive Json where
  | null
  | bool (b : Bool)
  | num (n : Int)
  | str (s : String)
  | arr (elems : List Json)
  | obj (members : List (String × Json))

/-- The character `{`. -/
def lbrace : Char := Char.ofNat 123

/-- The character `}`. -/
def rbrace : Char := Char.ofNat 125

/-- JSON whitespace accepted between tokens (as in CPython's json module). -/
def isWs (c : Char) : Bool := c = ' ' || c = '\t' || c = '\n' || c = '\r'

/-- Skip JSON whitespace. -/
def skipWs : List Char → List Char
  | [] => []
  | c :: cs => if isWs c then skipWs cs else c :: cs

/-- Value of one hexadecimal digit (both cases accepted, as in `\uXXXX`). -/
def hexVal (c : Char) : Option Nat :=
  if '0' ≤ c ∧ c ≤ '9' then some (c.toNat - 48)
  else if 'a' ≤ c ∧ c ≤ 'f' then some (c.toNat - 87)
  else if 'A' ≤ c ∧ c ≤ 'F' then some (c.toNat - 55)
  else none

/-- Parse exactly four hex digits (the `XXXX` of a `\uXXXX` escape). -/
def parseHex4 : List Char → Option (Nat × List Char)
  | a :: b :: c :: d :: cs =>
    match hexVal a, hexVal b, hexVal c, hexVal d with
    | some x, some y, some z, some w => some (((x * 16 + y) * 16 + z) * 16 + w, cs)
    | _, _, _, _ => none
  | _ => none

/-- The single-character JSON string escapes (CPython's BACKSLASH table). -/
def unescape (c : Char) : Option Char :=
  if c = '"' then some '"'
  else if c = '\\' then some '\\'
  else if c = '/' then some '/'
  else if c = 'b' then some '\x08'
  else if c = 'f' then some '\x0C'
  else if c = 'n' then some '\n'
  else if c = 'r' then some '\r'
  else if c = 't' then some '\t'
  else none

/-- Cons a character onto the string being accumulated by `parseStringBody`. -/
def mapConsFst (c : Char) (r : Option (List Char × List Char)) :
    Option (List Char × List Char) :=
  r.map fun p => (c :: p.1, p.2)

/-- Parse a JSON string body (after the opening quote) up to and including the
closing quote, as CPython's `scanstring` with `strict=True`: raw control
characters are rejected, `\uXXXX` escapes and surrogate pairs are decoded.
`fuel` bounds the recursion; every step consumes at least one character, so
`fuel ≥` input length always suffices. -/
def parseStringBody : Nat → List Char → Option (List Char × List Char)
  | 0, _ => none
  | _ + 1, [] => none
  | fuel + 1, c :: cs =>
    if c = '"' then some ([], cs)
    else if c = '\\' then
      match cs with
      | [] => none
      | e :: cs2 =>
        if e = 'u' then
          match parseHex4 cs2 with
          | none => none
          | some (n, cs3) =>
            if 0xD800 ≤ n ∧ n < 0xDC00 then
              match cs3 with
              | b1 :: b2 :: cs4 =>
                if b1 = '\\' ∧ b2 = 'u' then
                  match parseHex4 cs4 with
                  | none => none
                  | some (m, cs5) =>
                    if 0xDC00 ≤ m ∧ m < 0xE000 then
                      mapConsFst
                        (Char.ofNat (0x10000 + (n - 0xD800) * 0x400 + (m - 0xDC00)))
                        (parseStringBody fuel cs5)
                    else mapConsFst (Char.ofNat n) (parseStringBody fuel cs3)
                else mapConsFst (Char.ofNat n) (parseStringBody fuel cs3)
              | _ => mapConsFst (Char.ofNat n) (parseStringBody fuel cs3)
            else mapConsFst (Char.ofNat n) (parseStringBody fuel cs3)
        else
          match unescape e with
          | none => none
          | some c2 => mapConsFst c2 (parseStringBody fuel cs2)
    else if c.toNat < 0x20 then none
    else mapConsFst c (parseStringBody fuel cs)

/-- Consume a run of decimal digits, accumulating their value. -/
def digitsVal (acc : Nat) : List Char → Nat × List Char
  | [] => (acc, [])
  | c :: cs =>
    if '0' ≤ c ∧ c ≤ '9' then digitsVal (acc * 10 + (c.toNat - 48)) cs
    else (acc, c :: cs)

/-- Parse an unsigned JSON integer: `0`, or a nonzero digit followed by digits
(JSON forbids leading zeros; a leading `0` stands alone, as in CPython's
NUMBER_RE, so `01` leaves `1` unconsumed and the surrounding context fails). -/
def parseUInt : List Char → Option (Nat × List Char)
  | [] => none
  | c :: cs =>
    if c = '0' then some (0, cs)
    else if '1' ≤ c ∧ c ≤ '9' then some (digitsVal (c.toNat - 48) cs)
    else none

/-- True when the next character would extend the number into a float
(fraction or exponent); floats are outside the modelled fragment. -/
def startsFrac : List Char → Bool
  | [] => false
  | c :: _ => c = '.' || c = 'e' || c = 'E'

/-- Parse a JSON integer with optional minus sign. -/
def parseNumber : List Char → Option (Int × List Char)
  | [] => none
  | c :: cs =>
    if c = '-' then
      match parseUInt cs with
      | some (n, r) => if startsFrac r then none else some (-(n : Int), r)
      | none => none
    else
      match parseUInt (c :: cs) with
      | some (n, r) => if startsFrac r then none else some ((n : Int), r)
      | none => none

/-- Insert one key/value pair with Python dict semantics: an existing key is
updated in place (keeping its first-occurrence position), a new key is
appended. -/
def insertKV (m : List (String × Json)) (k : String) (v : Json) :
    List (String × Json) :=
  if m.any (fun p => p.1 == k) then
    m.map fun p => if p.1 == k then (k, v) else p
  else m ++ [(k, v)]

/-- Build a Python dict from the key/value pairs in document order, as
CPython's json object parser does (`dict(pairs)`: later duplicate wins, first
position kept). -/
def dictOf (pairs : List (String × Json)) : List (String × Json) :=
  pairs.foldl (fun m p => insertKV m p.1 p.2) []

/-- Parsing modes of the recursive-descent scanner: a whole value, the inside
of an array (right after `[`), continuation of an array (after an element),
and the analogues for objects. -/
inductive PMode where
  | val
  | arrRest
  | arrTail
  | objRest
  | objTail

/-- The recursive-descent JSON scanner, modelling CPython's `json.loads`
grammar on the fragment described in the header.  `fuel` bounds recursion
depth; `jsonLoads` supplies more fuel than any successful parse can use, so
fuel exhaustion coincides with parse failure.  In the `arrRest`/`arrTail`
modes the result is `Json.arr` of the remaining elements; in the
`objRest`/`objTail` modes it is `Json.obj` of the remaining raw pairs in
document order (the caller applies `dictOf`). -/
def parseCore : Nat → PMode → List Char → Option (Json × List Char)
  | 0, _, _ => none
  | fuel + 1, .val, cs =>
    match skipWs cs with
    | [] => none
    | c :: cs1 =>
      if c = '"' then
        (parseStringBody cs1.length cs1).map fun p => (Json.str ⟨p.1⟩, p.2)
      else if c = '[' then parseCore fuel .arrRest cs1
      else if c = lbrace then
        match parseCore fuel .objRest cs1 with
        | some (.obj raw, r) => some (.obj (dictOf raw), r)
        | _ => none
      else if c = 't' then
        match cs1 with
        | 'r' :: 'u' :: 'e' :: cs2 => some (.bool true, cs2)
        | _ => none
      else if c = 'f' then
        match cs1 with
        | 'a' :: 'l' :: 's' :: 'e' :: cs2 => some (.bool false, cs2)
        | _ => none
      else if c = 'n' then
        match cs1 with
        | 'u' :: 'l' :: 'l' :: cs2 => some (.null, cs2)
        | _ => none
      else (parseNumber (c :: cs1)).map fun p => (Json.num p.1, p.2)
  | fuel + 1, .arrRest, cs =>
    match skipWs cs with
    | [] => none
    | c :: cs1 =>
      if c = ']' then some (.arr [], cs1)
      else
        match parseCore fuel .val (c :: cs1) with
        | none => none
        | some (v, r) =>
          match parseCore fuel .arrTail r with
          | some (.arr vs, r2) => some (.arr (v :: vs), r2)
          | _ => none
  | fuel + 1, .arrTail, cs =>
    match skipWs cs with
    | [] => none
    | c :: cs1 =>
      if c = ']' then some (.arr [], cs1)
      else if c = ',' then
        match parseCore fuel .val cs1 with
        | none => none
        | some (v, r) =>
          match parseCore fuel .arrTail r with
          | some (.arr vs, r2) => some (.arr (v :: vs), r2)
          | _ => none
      else none
  | fuel + 1, .objRest, cs =>
    match skipWs cs with
    | [] => none
    | c :: cs1 =>
      if c = rbrace then some (.obj [], cs1)
      else if c = '"' then
        match parseStringBody cs1.length cs1 with
        | none => none
        | some (kcs, r1) =>
          match skipWs r1 with
          | [] => none
          | c2 :: r2 =>
            if c2 = ':' then
              match parseCore fuel .val r2 with
              | none => none
              | some (v, r3) =>
                match parseCore fuel .objTail r3 with
                | some (.obj ps, r4) => some (.obj ((⟨kcs⟩, v) :: ps), r4)
                | _ => none
            else none
      else none
  | fuel + 1, .objTail, cs =>
    match skipWs cs with
    | [] => none
    | c :: cs1 =>
      if c = rbrace then some (.obj [], cs1)
      else if c = ',' then
        match skipWs cs1 with
        | [] => none
        | c2 :: cs2 =>
          if c2 = '"' then
            match parseStringBody cs2.length cs2 with
            | none => none
            | some (kcs, r1) =>
              match skipWs r1 with
              | [] => none
              | c3 :: r2 =>
                if c3 = ':' then
                  match parseCore fuel .val r2 with
                  | none => none
                  | some (v, r3) =>
                    match parseCore fuel .objTail r3 with
                    | some (.obj ps, r4) => some (.obj ((⟨kcs⟩, v) :: ps), r4)
                    | _ => none
                else none
          else none
      else none

/-- CPython's strict `json.loads` on the modelled fragment: parse one value,
allow trailing whitespace, reject trailing data ("Extra data"). -/
def jsonLoads (s : String) : Option Json :=
  match parseCore (2 * s.data.length + 2) .val s.data with
  | some (v, rest) => if skipWs rest = [] then some v else none
  | none => none

/-- One lowercase hexadecimal digit (CPython formats escapes with `%04x`). -/
def hexDigitChar (n : Nat) : Char :=
  if n < 10 then Char.ofNat (48 + n) else Char.ofNat (87 + n)

/-- Four lowercase hex digits of `n < 0x10000`, as in a `\uXXXX` escape. -/
def hex4 (n : Nat) : List Char :=
  [hexDigitChar (n / 4096 % 16), hexDigitChar (n / 256 % 16),
   hexDigitChar (n / 16 % 16), hexDigitChar (n % 16)]

/-- `json.dumps` encoding of one character with the default
`ensure_ascii=True`: named escapes for quote, backslash and the common control
characters, printable ASCII kept literal, everything else as `\uXXXX`
(a surrogate pair above the BMP), exactly as CPython's
`py_encode_basestring_ascii`. -/
def encodeChar (c : Char) : List Char :=
  if c = '"' then ['\\', '"']
  else if c = '\\' then ['\\', '\\']
  else if c = '\n' then ['\\', 'n']
  else if c = '\r' then ['\\', 'r']
  else if c = '\t' then ['\\', 't']
  else if c = '\x08' then ['\\', 'b']
  else if c = '\x0C' then ['\\', 'f']
  else if 0x20 ≤ c.toNat ∧ c.toNat ≤ 0x7E then [c]
  else if c.toNat < 0x10000 then '\\' :: 'u' :: hex4 c.toNat
  else
    '\\' :: 'u' :: hex4 (0xD800 + (c.toNat - 0x10000) / 0x400) ++
      '\\' :: 'u' :: hex4 (0xDC00 + (c.toNat - 0x10000) % 0x400)

/-- Body of a dumped JSON string (no surrounding quotes). -/
def encBody (s : List Char) : List Char := (s.map encodeChar).flatten

/-- A dumped JSON string, quotes included. -/
def encStr (s : String) : List Char := '"' :: (encBody s.data ++ ['"'])

/-- The `", " ++ element` tail of a dumped list (default separator `", "`). -/
def tailEnc (qs : List String) : List Char :=
  (qs.map fun r => ',' :: ' ' :: encStr r).flatten

/-- Characters of `json.dumps(Q)` for a list of strings `Q` (default
separators, no indent): `[]` when empty, otherwise `[` elem (`, ` elem)* `]`. -/
def dumpsChars (Q : List String) : List Char :=
  match Q with
  | [] => ['[', ']']
  | q :: qs => '[' :: (encStr q ++ tailEnc qs ++ [']'])

/-- `json.dumps(Q)` for a list of strings `Q`. -/
def dumpsList (Q : List String) : String := ⟨dumpsChars Q⟩

/-- One submitted question/answer pair, as appended by the Submit-Answer
handler: `{"question": question, "answer": answer}`.  The question type is a
parameter because Python is untyped: the stored questions are whatever the
decoded JSON contained. -/
structure AnswerRecord (α : Type) where
  question : α
  answer : String
deriving Repr, DecidableEq

/-- Characters of `json.dumps(record, indent=2)` at one level of nesting
inside the exported array: `{`, newline, 4-space-indented `"question"` and
`"answer"` members joined by `,`, newline, 2-space-indented `}`. -/
def exportRecord (r : AnswerRecord String) : List Char :=
  lbrace :: '\n' :: ' ' :: ' ' :: ' ' :: ' ' ::
    (encStr "question" ++ ':' :: ' ' :: encStr r.question ++
     ',' :: '\n' :: ' ' :: ' ' :: ' ' :: ' ' ::
     (encStr "answer" ++ ':' :: ' ' :: encStr r.answer ++
      '\n' :: ' ' :: ' ' :: [rbrace]))

/-- The `",\n  " ++ record` tail of the exported array. -/
def exportTail (rs : List (AnswerRecord String)) : List Char :=
  (rs.map fun x => ',' :: '\n' :: ' ' :: ' ' :: exportRecord x).flatten

/-- Characters of `json.dumps(answers, indent=2)` as built for the
`Download Q&A JSON` button. -/
def exportChars (ans : List (AnswerRecord String)) : List Char :=
  match ans with
  | [] => ['[', ']']
  | r :: rs =>
    '[' :: '\n' :: ' ' :: ' ' ::
      (exportRecord r ++ exportTail rs ++ '\n' :: [']'])

/-- `json.dumps(answers, indent=2)`: the JSON export document. -/
def exportToJson (ans : List (AnswerRecord String)) : String := ⟨exportChars ans⟩

/-- Read one `{"question": ..., "answer": ...}` object back from decoded
JSON (the shape the export emits). -/
def answerOfJson : Json → Option (AnswerRecord String)
  | .obj [("question", .str q), ("answer", .str a)] => some ⟨q, a⟩
  | _ => none

/-- Decode a whole exported answers document back from JSON. -/
def decodeAnswers : Json → Option (List (AnswerRecord String)) :=
  fun j =>
    match j with
    | .arr l => l.mapM answerOfJson
    | _ => none

/-- The two exceptions the question-parsing `try` block of mainswapnil.py
lines 153-162 can catch: `json.JSONDecodeError` from `json.loads` (whose text
is a line/column/char diagnostic generated by CPython, never the document
itself, and is not modelled further), and the script's own
`ValueError("Parsed JSON is not a list of questions.")`. -/
inductive QuestionParseError where
  | decodeFailed
  | notAList
deriving Repr, DecidableEq

/-- The fixed message of the `ValueError` raised when the decoded JSON is
neither a list nor a dict (mainswapnil.py line 159). -/
def valueErrorText : String := "Parsed JSON is not a list of questions."

/-- The user-visible message of the except branch,
`st.error(f"Failed to parse questions from LLM response: {exc}")`. -/
def userErrorMessage (excText : String) : String :=
  "Failed to parse questions from LLM response: " ++ excText

/-- The question-parsing block of mainswapnil.py lines 153-162:
`qs = json.loads(raw)`; a dict is replaced by `list(qs.values())`; anything
that is then not a list raises the `ValueError`.  There is no per-element
check and no fallback extraction. -/
def parseQuestions (raw : String) : Except QuestionParseError (List Json) :=
  match jsonLoads raw with
  | none => .error .decodeFailed
  | some q =>
    match q with
    | .obj kvs => .ok (kvs.map fun p => p.2)
    | .arr l => .ok l
    | _ => .error .notAList

/-- The question-parsing block of mainswapnil1.py lines 95-102: identical
except that a dict is not tolerated (`if not isinstance(qs, list)` with no
dict branch). -/
def parseQuestions1 (raw : String) : Except QuestionParseError (List Json) :=
  match jsonLoads raw with
  | none => .error .decodeFailed
  | some q =>
    match q with
    | .arr l => .ok l
    | _ => .error .notAList

/-- Index of the first `[` or `{` in the text, if any. -/
def firstOpenIdx (cs : List Char) : Option Nat :=
  cs.findIdx? fun c => c = '[' || c = lbrace

/-- Index of the last `]` or `}` in the text, if any. -/
def lastCloseIdx (cs : List Char) : Option Nat :=
  match (cs.reverse).findIdx? fun c => c = ']' || c = rbrace with
  | some k => some (cs.length - 1 - k)
  | none => none

/-- The `json_match` cleanup of main.py lines 96-101:
`re.search(r'(\[|\{).*(\]|\})', content, re.DOTALL)` takes the substring from
the first `[` or `{` through the last `]` or `}` (greedy `.*`); without a
match the whole content is used. -/
def jsonMatchExtract (content : String) : String :=
  let cs := content.data
  match firstOpenIdx cs, lastCloseIdx cs with
  | some i, some j => if i < j then ⟨(cs.drop i).take (j - i + 1)⟩ else content
  | _, _ => none |>.getD content

/-- The job-details decode of main.py lines 102-104: `json.loads` applied to
the regex-extracted substring. -/
def jobDetailsParse (content : String) : Option Json :=
  jsonLoads (jsonMatchExtract content)

/-- The session state kept in `st.session_state`: `questions`, `answers`,
`idx` (the cursor). -/
structure Session (α : Type) where
  questions : List α
  answers : List (AnswerRecord α)
  idx : Nat
deriving Repr, DecidableEq

/-- The `st.session_state.setdefault` defaults: no questions, no answers,
cursor 0. -/
def initialSession (α : Type) : Session α := ⟨[], [], 0⟩

/-- The store-state block (mainswapnil.py lines 164-167): the three fields are
assigned together — new questions, empty answers, cursor 0. -/
def Session.load {α : Type} (s : Session α) (qs : List α) : Session α :=
  { s with questions := qs, answers := [], idx := 0 }

/-- The Submit-Answer handler (mainswapnil.py lines 179-182): the button only
exists while `idx < len(questions)`, and then
`answers.append({"question": questions[idx], "answer": text}); idx += 1`. -/
def Session.submitAnswer {α : Type} (s : Session α) (text : String) : Session α :=
  match s.questions[s.idx]? with
  | some q => { s with answers := s.answers ++ [⟨q, text⟩], idx := s.idx + 1 }
  | none => s

/-- Completion in the sense of the spec's state machine: the cursor has
reached `len(questions)` (the Empty state is treated as immediately
Completed). -/
def Session.isCompleted {α : Type} (s : Session α) : Bool :=
  s.idx == s.questions.length

/-- What the Q&A loop renders for a given session state. -/
inductive View (α : Type) where
  | noView
  | questionView (index : Nat) (question : α)
  | completedView (answers : List (AnswerRecord α))
deriving Repr

/-- The Q&A rendering gate (mainswapnil.py lines 172-191): the outer
`if st.session_state.get("questions"):` tests truthiness (a nonempty list);
inside, `idx < len(questions)` shows the current question, otherwise the
completion view with the download button for the answers. -/
def Session.render {α : Type} (s : Session α) : View α :=
  if s.questions.isEmpty then .noView
  else if h : s.idx < s.questions.length then
    .questionView s.idx (s.questions.get ⟨s.idx, h⟩)
  else .completedView s.answers

/-- Effect of one Generate-Questions run on the session, given the raw LLM
text: on parse success the store-state block replaces the session; on failure
`st.error` is shown and `st.stop()` halts the script with the session
untouched. -/
def generateStep (s : Session Json) (raw : String) : Session Json :=
  match parseQuestions raw with
  | .ok qs => s.load qs
  | .error _ => s

/-- The session states reachable through the script: the setdefault initial
state, a store-state reset, and Submit-Answer steps. -/
inductive Reachable {α : Type} : Session α → Prop where
  | init : Reachable (initialSession α)
  | loaded {s : Session α} (Q : List α) (h : Reachable s) : Reachable (s.load Q)
  | submitted {s : Session α} (t : String) (h : Reachable s) :
      Reachable (s.submitAnswer t)

/-- The scenario text of the spec: prose followed by an embedded JSON array. -/
def scenarioText : String :=
  "Here are the questions:\n[\"What is X?\", \"Explain Y.\"]"

/-! ## Session controller lemmas -/

theorem submitAnswer_inProgress {α : Type} (pre rest' : List α) (q : α)
    (ans : List (AnswerRecord α)) (t : String) :
    Session.submitAnswer ⟨pre ++ q :: rest', ans, pre.length⟩ t =
      ⟨pre ++ q :: rest', ans ++ [⟨q, t⟩], pre.length + 1⟩ := by
  unfold Session.submitAnswer
  have h : (pre ++ q :: rest')[pre.length]? = some q := by
    rw [List.getElem?_append_right (Nat.le_refl _)]
    simp
  rw [h]

theorem foldl_submitAnswer {α : Type} :
    ∀ (ts : List String) (pre rest : List α) (ans : List (AnswerRecord α)),
    ts.length = rest.length →
    ts.foldl Session.submitAnswer ⟨pre ++ rest, ans, pre.length⟩ =
      ⟨pre ++ rest, ans ++ List.zipWith (fun q t => ⟨q, t⟩) rest ts,
        pre.length + rest.length⟩ := by
  intro ts
  induction ts with
  | nil =>
    intro pre rest ans h
    cases rest with
    | nil => simp
    | cons q rest' => simp at h
  | cons t ts ih =>
    intro pre rest ans h
    cases rest with
    | nil => simp at h
    | cons q rest' =>
      rw [List.foldl_cons, submitAnswer_inProgress]
      have hlen : ts.length = rest'.length := by simpa using h
      have hpre : pre ++ q :: rest' = (pre ++ [q]) ++ rest' := by simp
      have hplen : pre.length + 1 = (pre ++ [q]).length := by simp
      rw [hpre, hplen, ih (pre ++ [q]) rest' (ans ++ [AnswerRecord.mk q t]) hlen]
      simp [Nat.add_comm, Nat.add_assoc, Nat.add_left_comm]

theorem zipWith_question_getElem? {α : Type} :
    ∀ (Q : List α) (ts : List String) (i : Nat), i < Q.length →
    Q.length = ts.length →
    ((List.zipWith (fun q t => AnswerRecord.mk q t) Q ts)[i]?).map
        AnswerRecord.question = Q[i]? := by
  intro Q
  induction Q with
  | nil => intro ts i hi _; simp at hi
  | cons q Q ih =>
    intro ts i hi hlen
    cases ts with
    | nil => simp at hlen
    | cons t ts =>
      cases i with
      | zero => simp
      | succ j =>
        simp only [List.zipWith_cons_cons, List.getElem?_cons_succ]
        exact ih ts j (by simpa using hi) (by simpa using hlen)

theorem submitAnswer_monotone {α : Type} (s : Session α) (t : String) :
    s.answers.length ≤ (s.submitAnswer t).answers.length ∧
      s.idx ≤ (s.submitAnswer t).idx := by
  unfold Session.submitAnswer
  cases hq : s.questions[s.idx]? <;> simp

theorem reachable_len_eq {α : Type} :
    ∀ s : Session α, Reachable s → s.answers.length = s.idx := by
  intro s h
  induction h with
  | init => rfl
  | loaded Q h ih => rfl
  | submitted t h ih =>
    unfold Session.submitAnswer
    split <;> simp [ih]

/-- C1: loading any question list `Q` of length `n` into a fresh session and
performing exactly `n` `submitAnswer` calls (each appending the current
question paired with the given answer text and incrementing the cursor by 1)
leaves the session Completed with `len(answers) = n` and
`answers[i].question = Q[i]` for every `i < n`. -/
theorem session_completion {α : Type} (Q : List α) (ts : List String)
    (h : ts.length = Q.length) :
    (ts.foldl Session.submitAnswer ((initialSession α).load Q)).isCompleted = true ∧
    (ts.foldl Session.submitAnswer ((initialSession α).load Q)).answers.length
        = Q.length ∧
    ∀ i, i < Q.length →
      ((ts.foldl Session.submitAnswer
          ((initialSession α).load Q)).answers[i]?).map AnswerRecord.question
        = Q[i]? := by
  have key : (initialSession α).load Q =
      Session.mk ([] ++ Q) [] (List.length ([] : List α)) := by
    simp [initialSession, Session.load]
  rw [key, foldl_submitAnswer ts [] Q [] (by simpa using h)]
  refine ⟨by simp [Session.isCompleted], by simp [h.symm], ?_⟩
  intro i hi
  simpa using zipWith_question_getElem? Q ts i hi h.symm

theorem session_completion_witness :
    (["A1", "A2"] : List String).length = (["Q1", "Q2"] : List String).length ∧
    ((["A1", "A2"].foldl Session.submitAnswer
        ((initialSession String).load ["Q1", "Q2"])).isCompleted = true ∧
     (["A1", "A2"].foldl Session.submitAnswer
        ((initialSession String).load ["Q1", "Q2"])).answers.length
        = (["Q1", "Q2"] : List String).length ∧
     ∀ i, i < (["Q1", "Q2"] : List String).length →
      ((["A1", "A2"].foldl Session.submitAnswer
          ((initialSession String).load
            ["Q1", "Q2"])).answers[i]?).map AnswerRecord.question
        = (["Q1", "Q2"] : List String)[i]?) :=
  ⟨rfl, session_completion ["Q1", "Q2"] ["A1", "A2"] rfl⟩

/-- C3: in every reachable session state `len(answers) = cursor`; moreover no
Submit-Answer step ever removes an answer or decrements the cursor. -/
theorem session_invariant {α : Type} (s : Session α) (h : Reachable s) :
    s.answers.length = s.idx ∧
    ∀ t : String, s.answers.length ≤ (s.submitAnswer t).answers.length ∧
      s.idx ≤ (s.submitAnswer t).idx :=
  ⟨reachable_len_eq s h, fun t => submitAnswer_monotone s t⟩

theorem session_invariant_witness :
    Reachable (((initialSession String).load ["Q1"]).submitAnswer "A1") ∧
    ((((initialSession String).load ["Q1"]).submitAnswer "A1").answers.length
        = (((initialSession String).load ["Q1"]).submitAnswer "A1").idx ∧
     ∀ t : String,
      (((initialSession String).load ["Q1"]).submitAnswer "A1").answers.length
        ≤ ((((initialSession String).load ["Q1"]).submitAnswer
            "A1").submitAnswer t).answers.length ∧
      (((initialSession String).load ["Q1"]).submitAnswer "A1").idx
        ≤ ((((initialSession String).load ["Q1"]).submitAnswer
            "A1").submitAnswer t).idx) :=
  ⟨Reachable.submitted "A1" (Reachable.loaded ["Q1"] Reachable.init),
   session_invariant _
     (Reachable.submitted "A1" (Reachable.loaded ["Q1"] Reachable.init))⟩

/-- C8: the store-state block is an atomic reset: loading `Q2` after any
prior load of `Q1` and any number of Submit-Answer steps yields exactly the
session a fresh load of `Q2` would — questions `Q2`, no answers, cursor 0,
no residue from `Q1`. -/
theorem load_reset {α : Type} (s0 : Session α) (Q1 Q2 : List α)
    (ts : List String) :
    (ts.foldl Session.submitAnswer (s0.load Q1)).load Q2
        = (initialSession α).load Q2 ∧
    ((ts.foldl Session.submitAnswer (s0.load Q1)).load Q2).questions = Q2 ∧
    ((ts.foldl Session.submitAnswer (s0.load Q1)).load Q2).answers = [] ∧
    ((ts.foldl Session.submitAnswer (s0.load Q1)).load Q2).idx = 0 :=
  ⟨rfl, rfl, rfl, rfl⟩

/-- C10: with an empty question list the outer truthiness gate hides the Q&A
flow entirely — neither a question nor the completion view (with its
export/download options) is rendered — even though the cursor equals
`len(questions)` and the answers list is empty. -/
theorem empty_questions_no_view {α : Type} (s0 : Session α) :
    (s0.load []).render = View.noView ∧
    (s0.load []).idx = (s0.load []).questions.length ∧
    (s0.load []).answers = [] :=
  ⟨rfl, rfl, rfl⟩

/-! ## Extractor behaviour -/

/-- C2 counterexample: the question extractor fails on the spec's scenario
text instead of parsing it to the two-element question list — `json.loads`
raises on the leading prose and no fallback extraction is attempted. -/
theorem scenario_not_parsed :
    parseQuestions scenarioText = .error .decodeFailed := rfl

/-- C2 (amended): the question-parsing code performs only the direct strict
decode — whenever `json.loads` fails, `parseQuestions` fails with no fallback
attempted; the first-`[`/`{`-to-last-`]`/`}` substring fallback exists only in
main.py's job-details flow, where the scenario text's embedded array does
decode to the two questions. -/
theorem no_fallback_in_question_parsing (raw : String)
    (h : jsonLoads raw = none) :
    parseQuestions raw = .error .decodeFailed ∧
    jobDetailsParse scenarioText
      = some (.arr [.str "What is X?", .str "Explain Y."]) :=
  ⟨by unfold parseQuestions; rw [h], rfl⟩

theorem no_fallback_in_question_parsing_witness :
    jsonLoads scenarioText = none ∧
    (parseQuestions scenarioText = .error .decodeFailed ∧
     jobDetailsParse scenarioText
       = some (.arr [.str "What is X?", .str "Explain Y."])) :=
  ⟨rfl, no_fallback_in_question_parsing scenarioText rfl⟩

/-- C4 counterexample: the failure payload does not carry the raw text — two
different unparseable inputs produce the same exception value, so no function
of the failure can return the original raw text unchanged. -/
theorem parse_failure_loses_raw_text :
    ¬ ∃ recover : QuestionParseError → String,
      ∀ (raw : String) (e : QuestionParseError),
        parseQuestions raw = Except.error e → recover e = raw := by
  rintro ⟨recover, hrec⟩
  have h1 : recover .notAList = "42" := hrec "42" .notAList rfl
  have h2 : recover .notAList = "43" := hrec "43" .notAList rfl
  rw [h1] at h2
  exact absurd h2 (by decide)

/-- C4 (amended): on any parse failure the flow halts without crashing and
without touching the session (`st.error` then `st.stop`), and the surfaced
message is the fixed prefix plus the exception text only (for the
not-a-list failure, the fixed `ValueError` string) — not the raw text. -/
theorem parse_failure_no_crash (s : Session Json) (raw : String)
    (e : QuestionParseError) (h : parseQuestions raw = .error e) :
    generateStep s raw = s ∧
    userErrorMessage valueErrorText =
      "Failed to parse questions from LLM response: Parsed JSON is not a list of questions." :=
  ⟨by unfold generateStep; rw [h], rfl⟩

theorem parse_failure_no_crash_witness :
    parseQuestions "42" = .error .notAList ∧
    (generateStep (initialSession Json) "42" = initialSession Json ∧
     userErrorMessage valueErrorText =
       "Failed to parse questions from LLM response: Parsed JSON is not a list of questions.") :=
  ⟨rfl, parse_failure_no_crash (initialSession Json) "42" .notAList rfl⟩

/-- C5: when the decoded JSON is a mapping, the extractor takes the mapping's
values, in declaration order, as the question candidates instead of rejecting
the input (`if isinstance(qs, dict): qs = list(qs.values())`). -/
theorem mapping_values_tolerated (raw : String) (kvs : List (String × Json))
    (h : jsonLoads raw = some (Json.obj kvs)) :
    parseQuestions raw = .ok (kvs.map fun p => p.2) := by
  unfold parseQuestions; rw [h]

theorem mapping_values_tolerated_witness :
    jsonLoads "\x7b\"a\": \"q1\", \"b\": \"q2\"\x7d"
      = some (Json.obj [("a", Json.str "q1"), ("b", Json.str "q2")]) ∧
    parseQuestions "\x7b\"a\": \"q1\", \"b\": \"q2\"\x7d"
      = .ok [Json.str "q1", Json.str "q2"] :=
  ⟨rfl, mapping_values_tolerated _ [("a", Json.str "q1"), ("b", Json.str "q2")] rfl⟩

/-- C6 counterexample: a decoded sequence containing non-string elements is
accepted by the extractor (the claim requires it to fail): `"[1, 2]"` parses
to the two JSON numbers. -/
theorem nonstring_elements_accepted :
    parseQuestions "[1, 2]" = .ok [Json.num 1, Json.num 2] := rfl

/-- C6 (amended): the extractor performs no per-element type check — any
decoded JSON sequence is accepted unchanged as the question list, whether or
not its elements are strings. -/
theorem sequence_accepted_unchanged (raw : String) (l : List Json)
    (h : jsonLoads raw = some (Json.arr l)) :
    parseQuestions raw = .ok l := by
  unfold parseQuestions; rw [h]

theorem sequence_accepted_unchanged_witness :
    jsonLoads "[1, true]" = some (Json.arr [Json.num 1, Json.bool true]) ∧
    parseQuestions "[1, true]" = .ok [Json.num 1, Json.bool true] :=
  ⟨rfl, sequence_accepted_unchanged "[1, true]" [Json.num 1, Json.bool true] rfl⟩

/-! ## Round-trip lemmas: dumped strings parse back -/

theorem hexVal_hexDigitChar : ∀ n, n < 16 → hexVal (hexDigitChar n) = some n := by
  decide

theorem parseHex4_hex4 (n : Nat) (h : n < 65536) (rest : List Char) :
    parseHex4 (hex4 n ++ rest) = some (n, rest) := by
  simp only [hex4, List.cons_append, List.nil_append, parseHex4]
  rw [hexVal_hexDigitChar (n / 4096 % 16) (by omega),
      hexVal_hexDigitChar (n / 256 % 16) (by omega),
      hexVal_hexDigitChar (n / 16 % 16) (by omega),
      hexVal_hexDigitChar (n % 16) (by omega)]
  simp only [Option.some.injEq, Prod.mk.injEq]
  exact ⟨by omega, trivial⟩

theorem psb_close (fuel : Nat) (cs : List Char) :
    parseStringBody (fuel + 1) ('"' :: cs) = some ([], cs) := by
  simp [parseStringBody]

theorem psb_escape (fuel : Nat) (e c2 : Char) (cs : List Char)
    (he : e ≠ 'u') (hu : unescape e = some c2) :
    parseStringBody (fuel + 1) ('\\' :: e :: cs) =
      mapConsFst c2 (parseStringBody fuel cs) := by
  simp [parseStringBody, he, hu]

theorem psb_lit (fuel : Nat) (c : Char) (cs : List Char)
    (h1 : c ≠ '"') (h2 : c ≠ '\\') (h3 : ¬ c.toNat < 0x20) :
    parseStringBody (fuel + 1) (c :: cs) = mapConsFst c (parseStringBody fuel cs) := by
  simp [parseStringBody, h1, h2, h3]

theorem psb_u (fuel n : Nat) (cs : List Char) (hn : n < 65536)
    (hs : ¬ (0xD800 ≤ n ∧ n < 0xDC00)) :
    parseStringBody (fuel + 1) ('\\' :: 'u' :: (hex4 n ++ cs)) =
      mapConsFst (Char.ofNat n) (parseStringBody fuel cs) := by
  simp [parseStringBody, parseHex4_hex4 n hn cs, hs]

theorem psb_pair (fuel n m : Nat) (cs : List Char)
    (hn1 : 0xD800 ≤ n) (hn2 : n < 0xDC00) (hm1 : 0xDC00 ≤ m) (hm2 : m < 0xE000) :
    parseStringBody (fuel + 1)
        ('\\' :: 'u' :: (hex4 n ++ ('\\' :: 'u' :: (hex4 m ++ cs)))) =
      mapConsFst (Char.ofNat (0x10000 + (n - 0xD800) * 0x400 + (m - 0xDC00)))
        (parseStringBody fuel cs) := by
  simp [parseStringBody, parseHex4_hex4 n (by omega) _,
        parseHex4_hex4 m (by omega) _, hn1, hn2, hm1, hm2]

theorem encodeChar_ne_nil (c : Char) : encodeChar c ≠ [] := by
  unfold encodeChar
  split_ifs <;> simp

theorem psb_encodeChar (c : Char) (fuel : Nat) (k : List Char) :
    parseStringBody (fuel + 1) (encodeChar c ++ k) =
      mapConsFst c (parseStringBody fuel k) := by
  by_cases h1 : c = '"'
  · subst h1
    rw [show encodeChar '"' = ['\\', '"'] from rfl, List.cons_append,
        List.cons_append, List.nil_append]
    exact psb_escape fuel '"' '"' k (by decide) (by decide)
  by_cases h2 : c = '\\'
  · subst h2
    rw [show encodeChar '\\' = ['\\', '\\'] from rfl, List.cons_append,
        List.cons_append, List.nil_append]
    exact psb_escape fuel '\\' '\\' k (by decide) (by decide)
  by_cases h3 : c = '\n'
  · subst h3
    rw [show encodeChar '\n' = ['\\', 'n'] from rfl, List.cons_append,
        List.cons_append, List.nil_append]
    exact psb_escape fuel 'n' '\n' k (by decide) (by decide)
  by_cases h4 : c = '\r'
  · subst h4
    rw [show encodeChar '\r' = ['\\', 'r'] from rfl, List.cons_append,
        List.cons_append, List.nil_append]
    exact psb_escape fuel 'r' '\r' k (by decide) (by decide)
  by_cases h5 : c = '\t'
  · subst h5
    rw [show encodeChar '\t' = ['\\', 't'] from rfl, List.cons_append,
        List.cons_append, List.nil_append]
    exact psb_escape fuel 't' '\t' k (by decide) (by decide)
  by_cases h6 : c = '\x08'
  · subst h6
    rw [show encodeChar '\x08' = ['\\', 'b'] from rfl, List.cons_append,
        List.cons_append, List.nil_append]
    exact psb_escape fuel 'b' '\x08' k (by decide) (by decide)
  by_cases h7 : c = '\x0C'
  · subst h7
    rw [show encodeChar '\x0C' = ['\\', 'f'] from rfl, List.cons_append,
        List.cons_append, List.nil_append]
    exact psb_escape fuel 'f' '\x0C' k (by decide) (by decide)
  by_cases h8 : 0x20 ≤ c.toNat ∧ c.toNat ≤ 0x7E
  · have he : encodeChar c = [c] := by
      unfold encodeChar
      simp [h1, h2, h3, h4, h5, h6, h7, h8]
    rw [he, List.cons_append, List.nil_append]
    exact psb_lit fuel c k h1 h2 (by omega)
  by_cases h9 : c.toNat < 0x10000
  · have he : encodeChar c = '\\' :: 'u' :: hex4 c.toNat := by
      unfold encodeChar
      simp [h1, h2, h3, h4, h5, h6, h7, h8, h9]
    have hv : c.toNat < 0xD800 ∨ (0xDFFF < c.toNat ∧ c.toNat < 0x110000) := c.valid
    rw [he, List.cons_append, List.cons_append,
        psb_u fuel c.toNat k h9 (by omega), Char.ofNat_toNat]
  · have he : encodeChar c =
        '\\' :: 'u' :: hex4 (0xD800 + (c.toNat - 0x10000) / 0x400) ++
          '\\' :: 'u' :: hex4 (0xDC00 + (c.toNat - 0x10000) % 0x400) := by
      unfold encodeChar
      simp [h1, h2, h3, h4, h5, h6, h7, h8, h9]
    have hv : c.toNat < 0xD800 ∨ (0xDFFF < c.toNat ∧ c.toNat < 0x110000) := c.valid
    rw [he]
    simp only [List.cons_append, List.append_assoc]
    rw [psb_pair fuel _ _ k (by omega) (by omega) (by omega) (by omega)]
    have harith : 0x10000 + (0xD800 + (c.toNat - 0x10000) / 0x400 - 0xD800) * 0x400 +
        (0xDC00 + (c.toNat - 0x10000) % 0x400 - 0xDC00) = c.toNat := by omega
    rw [harith, Char.ofNat_toNat]

theorem encodeChar_length_pos (c : Char) : 1 ≤ (encodeChar c).length := by
  unfold encodeChar
  split_ifs <;> simp

theorem encBody_nil : encBody [] = [] := rfl

theorem encBody_cons (c : Char) (s : List Char) :
    encBody (c :: s) = encodeChar c ++ encBody s := by
  simp [encBody]

theorem length_le_encBody (s : List Char) : s.length ≤ (encBody s).length := by
  induction s with
  | nil => simp [encBody]
  | cons c s ih =>
    rw [encBody_cons]
    have := encodeChar_length_pos c
    simp only [List.length_append, List.length_cons]
    omega

theorem psb_encBody (s : List Char) : ∀ (fuel : Nat) (rest : List Char),
    s.length < fuel →
    parseStringBody fuel (encBody s ++ '"' :: rest) = some (s, rest) := by
  induction s with
  | nil =>
    intro fuel rest h
    cases fuel with
    | zero => omega
    | succ f => rw [encBody_nil, List.nil_append]; exact psb_close f rest
  | cons c s ih =>
    intro fuel rest h
    cases fuel with
    | zero => omega
    | succ f =>
      rw [encBody_cons, List.append_assoc, psb_encodeChar c f _,
          ih f rest (by simp at h; omega)]
      rfl

theorem skipWs_cons_not (c : Char) (l : List Char) (h : isWs c = false) :
    skipWs (c :: l) = c :: l := by
  simp [skipWs, h]

theorem skipWs_space (l : List Char) : skipWs (' ' :: l) = skipWs l := by
  simp [skipWs, isWs]

theorem skipWs_encStr (s : String) (l : List Char) :
    skipWs (encStr s ++ l) = encStr s ++ l := by
  rw [show encStr s ++ l = '"' :: ((encBody s.data ++ ['"']) ++ l) from by
        simp [encStr]]
  exact skipWs_cons_not _ _ (by decide)

theorem pc_val_str (fuel : Nat) (s : String) (cs rest : List Char)
    (h : skipWs cs = encStr s ++ rest) :
    parseCore (fuel + 1) .val cs = some (.str s, rest) := by
  have hcs : skipWs cs = '"' :: (encBody s.data ++ '"' :: rest) := by
    rw [h]; simp [encStr]
  have hlen : s.data.length < (encBody s.data ++ '"' :: rest).length := by
    have := length_le_encBody s.data
    simp only [List.length_append, List.length_cons]
    omega
  simp only [parseCore]
  rw [hcs]
  simp only [reduceIte]
  rw [psb_encBody s.data _ rest hlen]
  rfl

theorem tailEnc_nil : tailEnc [] = [] := rfl

theorem tailEnc_cons (q : String) (qs : List String) :
    tailEnc (q :: qs) = ',' :: ' ' :: (encStr q ++ tailEnc qs) := by
  simp [tailEnc]

theorem length_tailEnc (qs : List String) : qs.length ≤ (tailEnc qs).length := by
  induction qs with
  | nil => simp [tailEnc]
  | cons q qs ih =>
    rw [tailEnc_cons]
    simp only [List.length_cons, List.length_append]
    omega

theorem length_dumpsChars (Q : List String) :
    Q.length + 1 ≤ (dumpsChars Q).length := by
  cases Q with
  | nil => simp [dumpsChars]
  | cons q qs =>
    have := length_tailEnc qs
    simp only [dumpsChars, List.length_cons, List.length_append]
    omega

theorem pc_arrTail_strs (qs : List String) : ∀ (fuel : Nat) (rest : List Char),
    2 * qs.length + 1 ≤ fuel →
    parseCore fuel .arrTail (tailEnc qs ++ ']' :: rest) =
      some (.arr (qs.map Json.str), rest) := by
  induction qs with
  | nil =>
    intro fuel rest hf
    obtain ⟨f, rfl⟩ : ∃ f, fuel = f + 1 := ⟨fuel - 1, by omega⟩
    rw [tailEnc_nil, List.nil_append]
    rw [parseCore.eq_4]
    rw [skipWs_cons_not ']' rest (by decide)]
    simp
  | cons q qs ih =>
    intro fuel rest hf
    simp only [List.length_cons] at hf
    obtain ⟨g, rfl⟩ : ∃ g, fuel = g + 1 + 1 := ⟨fuel - 2, by omega⟩
    rw [tailEnc_cons, List.cons_append, List.cons_append, List.append_assoc]
    rw [parseCore.eq_4]
    rw [skipWs_cons_not ',' _ (by decide)]
    simp only [Char.reduceEq, reduceIte]
    rw [pc_val_str g q _ _ (by rw [skipWs_space, skipWs_encStr])]
    simp only []
    rw [ih (g + 1) rest (by omega)]
    simp

theorem pc_val_dumps (Q : List String) (fuel : Nat) (cs rest : List Char)
    (h : skipWs cs = dumpsChars Q ++ rest) (hf : 2 * Q.length + 3 ≤ fuel) :
    parseCore fuel .val cs = some (.arr (Q.map Json.str), rest) := by
  obtain ⟨g, rfl⟩ : ∃ g, fuel = g + 1 + 1 := ⟨fuel - 2, by omega⟩
  cases Q with
  | nil =>
    rw [parseCore.eq_2, h]
    simp only [dumpsChars, List.cons_append, List.nil_append]
    simp only [Char.reduceEq, reduceIte]
    rw [parseCore.eq_3]
    rw [skipWs_cons_not ']' rest (by decide)]
    simp
  | cons q qs =>
    simp only [List.length_cons] at hf
    obtain ⟨g2, rfl⟩ : ∃ g2, g = g2 + 1 := ⟨g - 1, by omega⟩
    rw [parseCore.eq_2, h]
    simp only [dumpsChars, List.cons_append, List.append_assoc]
    simp only [Char.reduceEq, reduceIte]
    rw [parseCore.eq_3]
    simp only [List.nil_append]
    rw [skipWs_encStr q (tailEnc qs ++ ']' :: rest)]
    have hq : encStr q ++ (tailEnc qs ++ ']' :: rest) =
        '"' :: ((encBody q.data ++ ['"']) ++ (tailEnc qs ++ ']' :: rest)) := by
      simp [encStr]
    rw [hq]
    simp only [Char.reduceEq, reduceIte]
    rw [show ('"' : Char) :: ((encBody q.data ++ ['"']) ++ (tailEnc qs ++ ']' :: rest))
          = encStr q ++ (tailEnc qs ++ ']' :: rest) from by simp [encStr]]
    rw [pc_val_str g2 q _ _ (by rw [skipWs_encStr])]
    simp only []
    rw [pc_arrTail_strs qs (g2 + 1) rest (by omega)]
    simp

/-- C7: the extractor round-trips the strict JSON encoding of any list of
strings: `Extractor.parse(json.dumps(Q))` succeeds and returns exactly the
questions of `Q` — same strings, same order, duplicates preserved. -/
theorem strict_decode_roundtrip (Q : List String) :
    parseQuestions (dumpsList Q) = .ok (Q.map Json.str) := by
  have hskip : skipWs (dumpsChars Q) = dumpsChars Q ++ [] := by
    rw [List.append_nil]
    cases Q <;> exact skipWs_cons_not _ _ (by decide)
  have hlen := length_dumpsChars Q
  have hload : jsonLoads (dumpsList Q) = some (.arr (Q.map Json.str)) := by
    unfold jsonLoads
    rw [show (dumpsList Q).data = dumpsChars Q from rfl]
    rw [pc_val_dumps Q _ (dumpsChars Q) [] hskip (by omega)]
    simp [skipWs]
  unfold parseQuestions
  rw [hload]

/-! ## Round-trip lemmas: the indent-2 export parses back -/

theorem skipWs_nl (l : List Char) : skipWs ('\n' :: l) = skipWs l := by
  simp [skipWs, isWs]

theorem exportRecord_cons (x : AnswerRecord String) (l : List Char) :
    exportRecord x ++ l =
      lbrace :: ('\n' :: ' ' :: ' ' :: ' ' :: ' ' ::
        (encStr "question" ++ (':' :: ' ' :: (encStr x.question ++
          (',' :: '\n' :: ' ' :: ' ' :: ' ' :: ' ' ::
            (encStr "answer" ++ (':' :: ' ' :: (encStr x.answer ++
              ('\n' :: ' ' :: ' ' :: rbrace :: l))))))))) := by
  simp [exportRecord]

theorem pc_objTail_end (fuel : Nat) (rest : List Char) :
    parseCore (fuel + 1) .objTail ('\n' :: ' ' :: ' ' :: rbrace :: rest) =
      some (.obj [], rest) := by
  rw [parseCore.eq_6, skipWs_nl, skipWs_space, skipWs_space,
      skipWs_cons_not rbrace _ (by decide)]
  dsimp only
  rw [if_pos rfl]

theorem lt_length_encBody_append (s : List Char) (X : List Char) :
    s.length < (encBody s ++ '"' :: X).length := by
  have := length_le_encBody s
  rw [List.length_append, List.length_cons]
  omega

theorem pc_objTail_answer (f : Nat) (a : String) (rest : List Char) :
    parseCore (f + 1 + 1) .objTail
      (',' :: '\n' :: ' ' :: ' ' :: ' ' :: ' ' ::
        (encStr "answer" ++ (':' :: ' ' :: (encStr a ++
          ('\n' :: ' ' :: ' ' :: rbrace :: rest))))) =
      some (.obj [("answer", Json.str a)], rest) := by
  rw [parseCore.eq_6, skipWs_cons_not ',' _ (by decide)]
  dsimp only
  rw [if_neg (show ¬ ',' = rbrace by decide), if_pos rfl]
  rw [skipWs_nl, skipWs_space, skipWs_space, skipWs_space, skipWs_space,
      skipWs_encStr]
  rw [show encStr "answer" ++ (':' :: ' ' :: (encStr a ++
        ('\n' :: ' ' :: ' ' :: rbrace :: rest)))
      = '"' :: (encBody "answer".data ++ '"' :: (':' :: ' ' :: (encStr a ++
        ('\n' :: ' ' :: ' ' :: rbrace :: rest)))) from by simp [encStr]]
  dsimp only
  rw [if_pos rfl]
  rw [psb_encBody "answer".data _ _ (lt_length_encBody_append "answer".data _)]
  dsimp only
  rw [skipWs_cons_not ':' _ (by decide)]
  dsimp only
  rw [if_pos rfl]
  rw [pc_val_str f a _ _ (by rw [skipWs_space, skipWs_encStr])]
  dsimp only
  rw [pc_objTail_end f rest]

theorem pc_objRest_record (f : Nat) (r : AnswerRecord String) (rest : List Char) :
    parseCore (f + 1 + 1 + 1) .objRest
      ('\n' :: ' ' :: ' ' :: ' ' :: ' ' ::
        (encStr "question" ++ (':' :: ' ' :: (encStr r.question ++
          (',' :: '\n' :: ' ' :: ' ' :: ' ' :: ' ' ::
            (encStr "answer" ++ (':' :: ' ' :: (encStr r.answer ++
              ('\n' :: ' ' :: ' ' :: rbrace :: rest)))))))))
      = some (.obj [("question", Json.str r.question),
                    ("answer", Json.str r.answer)], rest) := by
  rw [parseCore.eq_5, skipWs_nl, skipWs_space, skipWs_space, skipWs_space,
      skipWs_space, skipWs_encStr]
  rw [show encStr "question" ++ (':' :: ' ' :: (encStr r.question ++
        (',' :: '\n' :: ' ' :: ' ' :: ' ' :: ' ' ::
          (encStr "answer" ++ (':' :: ' ' :: (encStr r.answer ++
            ('\n' :: ' ' :: ' ' :: rbrace :: rest)))))))
      = '"' :: (encBody "question".data ++ '"' :: (':' :: ' ' ::
          (encStr r.question ++ (',' :: '\n' :: ' ' :: ' ' :: ' ' :: ' ' ::
            (encStr "answer" ++ (':' :: ' ' :: (encStr r.answer ++
              ('\n' :: ' ' :: ' ' :: rbrace :: rest)))))))) from by simp [encStr]]
  dsimp only
  rw [if_neg (show ¬ '"' = rbrace by decide), if_pos rfl]
  rw [psb_encBody "question".data _ _ (lt_length_encBody_append "question".data _)]
  dsimp only
  rw [skipWs_cons_not ':' _ (by decide)]
  dsimp only
  rw [if_pos rfl]
  rw [pc_val_str (f + 1) r.question _ _ (by rw [skipWs_space, skipWs_encStr])]
  dsimp only
  rw [pc_objTail_answer f r.answer rest]

theorem pc_val_record (fuel : Nat) (r : AnswerRecord String) (cs rest : List Char)
    (h : skipWs cs = exportRecord r ++ rest) (hf : 4 ≤ fuel) :
    parseCore fuel .val cs =
      some (.obj [("question", Json.str r.question),
                  ("answer", Json.str r.answer)], rest) := by
  obtain ⟨f, rfl⟩ : ∃ f, fuel = f + 1 + 1 + 1 + 1 := ⟨fuel - 4, by omega⟩
  rw [parseCore.eq_2, h, exportRecord_cons]
  dsimp only
  rw [if_neg (show ¬ lbrace = '"' by decide),
      if_neg (show ¬ lbrace = '[' by decide), if_pos rfl]
  rw [pc_objRest_record f r rest]
  dsimp only
  rw [show dictOf [("question", Json.str r.question), ("answer", Json.str r.answer)]
        = [("question", Json.str r.question), ("answer", Json.str r.answer)] from by
    simp [dictOf, insertKV]]

theorem exportTail_nil : exportTail [] = [] := rfl

theorem exportTail_cons (x : AnswerRecord String)
    (xs : List (AnswerRecord String)) :
    exportTail (x :: xs) =
      ',' :: '\n' :: ' ' :: ' ' :: (exportRecord x ++ exportTail xs) := by
  simp [exportTail]

theorem length_exportTail (xs : List (AnswerRecord String)) :
    xs.length ≤ (exportTail xs).length := by
  induction xs with
  | nil => simp [exportTail]
  | cons x xs ih =>
    rw [exportTail_cons]
    simp only [List.length_cons, List.length_append]
    omega

theorem skipWs_exportRecord (x : AnswerRecord String) (l : List Char) :
    skipWs (exportRecord x ++ l) = exportRecord x ++ l := by
  rw [exportRecord_cons]
  exact skipWs_cons_not _ _ (by decide)

theorem pc_arrTail_records (rs : List (AnswerRecord String)) :
    ∀ (fuel : Nat) (rest : List Char), 2 * rs.length + 5 ≤ fuel →
    parseCore fuel .arrTail (exportTail rs ++ '\n' :: ']' :: rest) =
      some (.arr (rs.map fun x =>
        Json.obj [("question", Json.str x.question),
                  ("answer", Json.str x.answer)]), rest) := by
  induction rs with
  | nil =>
    intro fuel rest hf
    obtain ⟨f, rfl⟩ : ∃ f, fuel = f + 1 := ⟨fuel - 1, by omega⟩
    rw [exportTail_nil, List.nil_append, parseCore.eq_4, skipWs_nl,
        skipWs_cons_not ']' rest (by decide)]
    simp
  | cons x xs ih =>
    intro fuel rest hf
    simp only [List.length_cons] at hf
    obtain ⟨f, rfl⟩ : ∃ f, fuel = f + 1 := ⟨fuel - 1, by omega⟩
    rw [exportTail_cons, List.cons_append, List.cons_append, List.cons_append,
        List.cons_append, List.append_assoc]
    rw [parseCore.eq_4, skipWs_cons_not ',' _ (by decide)]
    dsimp only
    rw [if_neg (show ¬ ',' = ']' by decide), if_pos rfl]
    rw [pc_val_record f x _ _
      (by rw [skipWs_nl, skipWs_space, skipWs_space, skipWs_exportRecord])
      (by omega)]
    dsimp only
    rw [ih f rest (by omega)]
    simp

theorem length_exportChars (r : AnswerRecord String)
    (rs : List (AnswerRecord String)) :
    rs.length + 4 ≤ (exportChars (r :: rs)).length := by
  have := length_exportTail rs
  simp only [exportChars, List.length_cons, List.length_append]
  omega

theorem mapM_answerOfJson (l : List (AnswerRecord String)) :
    (l.map fun x => Json.obj [("question", Json.str x.question),
        ("answer", Json.str x.answer)]).mapM answerOfJson = some l := by
  induction l with
  | nil => rfl
  | cons x xs ih =>
    rw [List.map_cons, List.mapM_cons,
        show answerOfJson (Json.obj [("question", Json.str x.question),
          ("answer", Json.str x.answer)]) = some ⟨x.question, x.answer⟩ from rfl,
        ih]
    rfl

/-- C9: decoding the indent-2 JSON export of any non-empty answers sequence
reproduces the original answers exactly — same strings, same order, no loss. -/
theorem export_roundtrip (ans : List (AnswerRecord String)) (h : ans ≠ []) :
    (jsonLoads (exportToJson ans)).bind decodeAnswers = some ans := by
  cases ans with
  | nil => exact absurd rfl h
  | cons r rs =>
    have hlen := length_exportChars r rs
    have hparse : parseCore (2 * (exportChars (r :: rs)).length + 2) .val
        (exportChars (r :: rs)) =
        some (.arr ((r :: rs).map fun x =>
          Json.obj [("question", Json.str x.question),
                    ("answer", Json.str x.answer)]), []) := by
      obtain ⟨g, hg⟩ : ∃ g, 2 * (exportChars (r :: rs)).length + 2 = g + 1 + 1 :=
        ⟨2 * (exportChars (r :: rs)).length, by omega⟩
      rw [hg]
      rw [show exportChars (r :: rs)
            = '[' :: '\n' :: ' ' :: ' ' ::
              (exportRecord r ++ (exportTail rs ++ '\n' :: ']' :: [])) from by
        simp [exportChars]]
      rw [parseCore.eq_2, skipWs_cons_not '[' _ (by decide)]
      dsimp only
      rw [if_neg (show ¬ '[' = '"' by decide), if_pos rfl]
      rw [parseCore.eq_3, skipWs_nl, skipWs_space, skipWs_space,
          skipWs_exportRecord, exportRecord_cons]
      dsimp only
      rw [if_neg (show ¬ lbrace = ']' by decide)]
      rw [show (lbrace :: ('\n' :: ' ' :: ' ' :: ' ' :: ' ' ::
            (encStr "question" ++ (':' :: ' ' :: (encStr r.question ++
              (',' :: '\n' :: ' ' :: ' ' :: ' ' :: ' ' ::
                (encStr "answer" ++ (':' :: ' ' :: (encStr r.answer ++
                  ('\n' :: ' ' :: ' ' :: rbrace ::
                    (exportTail rs ++ '\n' :: ']' :: [])))))))))))
          = exportRecord r ++ (exportTail rs ++ '\n' :: ']' :: []) from
        (exportRecord_cons r _).symm]
      rw [pc_val_record g r _ _ (skipWs_exportRecord r _) (by omega)]
      dsimp only
      rw [pc_arrTail_records rs g [] (by omega)]
      simp
    unfold jsonLoads
    rw [show (exportToJson (r :: rs)).data = exportChars (r :: rs) from rfl]
    rw [hparse]
    dsimp only
    rw [if_pos (show skipWs [] = [] from rfl)]
    show decodeAnswers (Json.arr ((r :: rs).map fun x =>
      Json.obj [("question", Json.str x.question),
                ("answer", Json.str x.answer)])) = some (r :: rs)
    exact mapM_answerOfJson (r :: rs)

theorem export_roundtrip_witness :
    ([⟨"Q1", "A1"⟩] : List (AnswerRecord String)) ≠ [] ∧
    (jsonLoads (exportToJson [⟨"Q1", "A1"⟩])).bind decodeAnswers
      = some [(⟨"Q1", "A1"⟩ : AnswerRecord String)] :=
  ⟨List.cons_ne_nil _ _, export_roundtrip [⟨"Q1", "A1"⟩] (List.cons_ne_nil _ _)⟩
